import Mathlib

/-!
# Verification of the quokka repository's core algorithms

Shallow embedding of the algorithmic core of the `quokka` repository:

* `ClickHandler.click_until_element_visible`
  (`src/quokka/page_interactor/modules/click_handler.py`),
* `ScrollHandler._scroll_load` / `scroll_load_selector`
  (`src/quokka/page_interactor/modules/scroll_handler.py`),
* `BaseCrawler._validate_crawl_args`, `parallel_crawl`, `_crawl_worker` and
  `crawl` (`src/quokka_web/base_class/crawler.py`).

The browser driver (playwright) is external: its answers are modelled as
input streams (`Nat → Bool`, `Nat → Nat`, ...) indexed by the call count,
and each Python `await` on the driver is one stream read.  Python `raise`
is modelled with explicit result constructors or `Except`; machine
integers do not overflow here (Python ints are unbounded), so `Nat`/`Int`
are used directly.  All recursions are fuel/budget structural recursions so
that every definition evaluates by `decide`/`rfl`.
-/

/-! ## ClickHandler.click_until_element_visible

Python source (`click_handler.py`, lines 15-34):

```text
n_retry = 0
while not await self.page.is_visible(visible_selector) and n_retry < max_retry:
    if await self.page.is_visible(click_selector):
        element_to_click = await self.page.query_selector(click_selector)
        await element_to_click.scroll_into_view_if_needed()
        await element_to_click.click()
        try:
            await self.page.wait_for_selector(visible_selector, state='visible', timeout=5000)
        except Exception:
            pass
    else:
        raise RuntimeError(f"Cannot find the clicking element: ...")
    n_retry += 1
if n_retry >= max_retry:
    raise RuntimeError(f"Cannot make ... visible after ... tries.")
else:
    (debug log, return None)
```

`visT k` is the answer of the k-th `is_visible(visible_selector)` check in
the loop condition; `clickV k` the answer of the k-th
`is_visible(click_selector)` check.  Both indices coincide with `n_retry`
at the moment of the call.  The `wait_for_selector` call swallows its
timeout exception and changes no Python state, so it is not modelled
(its real-world effect on later visibility is absorbed into the streams).
The second component of the result counts the `element_to_click.click()`
calls actually performed.
-/

/-- Result of a `click_until_element_visible` call: normal return
(recording the final `n_retry`), the post-loop
`RuntimeError "Cannot make ... visible after ... tries"`, or the in-loop
`RuntimeError "Cannot find the clicking element"`. -/
inductive ClickRes where
  | madeVisible (n_retry : Nat)
  | cannotMakeVisible
  | cannotFindClicking
deriving DecidableEq, Repr

/-- The retry loop of `click_until_element_visible`.  `budget` is
`max_retry - n_retry`, maintained by the caller, so that the recursion is
structural; the loop guard `n_retry < max_retry` is exactly `budget ≠ 0`.
The post-loop `if n_retry >= max_retry` test is kept literally. -/
def clickLoop (visT clickV : Nat → Bool) (max_retry : Nat) :
    Nat → Nat → Nat → ClickRes × Nat
  | budget, n_retry, clicks =>
    if visT n_retry then
      if max_retry ≤ n_retry then (ClickRes.cannotMakeVisible, clicks)
      else (ClickRes.madeVisible n_retry, clicks)
    else
      match budget with
      | 0 => (ClickRes.cannotMakeVisible, clicks)
      | b + 1 =>
        if clickV n_retry then
          clickLoop visT clickV max_retry b (n_retry + 1) (clicks + 1)
        else (ClickRes.cannotFindClicking, clicks)

/-- `ClickHandler.click_until_element_visible`: result together with the
number of click attempts performed. -/
def click_until_element_visible (visT clickV : Nat → Bool) (max_retry : Nat) :
    ClickRes × Nat :=
  clickLoop visT clickV max_retry max_retry 0 0

/-- When the click-target is always visible, the loop's outcome depends only
on the visible-target checks: it raises the "cannot make visible" error
exactly when no check with index below `max_retry` saw the target. -/
theorem clickLoop_raise_iff (visT clickV : Nat → Bool) (max_retry : Nat)
    (hclick : ∀ i, clickV i = true) :
    ∀ budget n_retry clicks, budget + n_retry = max_retry →
      ((clickLoop visT clickV max_retry budget n_retry clicks).1 =
          ClickRes.cannotMakeVisible ↔
        ∀ j, n_retry ≤ j → j < max_retry → visT j = false) := by
  intro budget
  induction budget with
  | zero =>
    intro n_retry clicks h
    subst h
    constructor
    · intro _ j h1 h2; omega
    · intro _
      simp only [clickLoop]
      by_cases hv : visT n_retry
      · simp [hv]
      · simp [hv]
  | succ b ih =>
    intro n_retry clicks h
    simp only [clickLoop]
    by_cases hv : visT n_retry
    · have hlt : ¬ max_retry ≤ n_retry := by omega
      simp only [hv, if_true, hlt, if_false]
      constructor
      · intro hcontra; exact absurd hcontra (by simp)
      · intro hall
        have := hall n_retry (le_refl _) (by omega)
        rw [hv] at this; exact absurd this (by simp)
    · simp only [hv, Bool.false_eq_true, if_false, hclick, if_true]
      rw [ih (n_retry + 1) (clicks + 1) (by omega)]
      constructor
      · intro hall j h1 h2
        rcases Nat.eq_or_lt_of_le h1 with heq | hlt
        · rw [← heq]; exact Bool.eq_false_iff.mpr hv
        · exact hall j hlt h2
      · intro hall j h1 h2
        exact hall j (by omega) h2

/-- Claim C3 (amended): `click_until_element_visible` raises the
"Cannot make ... visible" error iff the visible-target was not visible at
any loop-condition check of index `< max_retry` (the checks made while
retries remained), assuming the click-target is always visible.
Visibility that first appears at the check *after* the `max_retry`-th
click (index `max_retry`) does **not** prevent the error: the post-loop
test looks only at `n_retry >= max_retry`, not at visibility. -/
theorem click_raises_iff_not_visible_before_budget
    (visT clickV : Nat → Bool) (max_retry : Nat)
    (hclick : ∀ i, clickV i = true) :
    (click_until_element_visible visT clickV max_retry).1 =
        ClickRes.cannotMakeVisible ↔
      ∀ j, j < max_retry → visT j = false := by
  have h := clickLoop_raise_iff visT clickV max_retry hclick max_retry 0 0
      (by omega)
  rw [click_until_element_visible, h]
  constructor
  · intro hall j hj; exact hall j (Nat.zero_le _) hj
  · intro hall j _ hj; exact hall j hj

/-- Witness for C3's amended theorem: with `max_retry = 2` and a target
that is never visible, the call raises the "cannot make visible" error. -/
theorem click_raises_witness :
    (click_until_element_visible (fun _ => false) (fun _ => true) 2).1 =
      ClickRes.cannotMakeVisible :=
  (click_raises_iff_not_visible_before_budget (fun _ => false)
    (fun _ => true) 2 (fun _ => rfl)).mpr (fun _ _ => rfl)

/-- Counterexample to claim C3 as stated: with `max_retry = 1`, a
click-target that is always visible and a visible-target that becomes
visible exactly at the loop-condition re-check after the first (and final)
click, the code still raises the "cannot make visible" error — even though
the visible-target *is* visible at that final re-check.  The claim's
"whenever the visible-target is visible when the loop condition is
re-checked (including after the final click attempt) the call returns
successfully" is therefore false. -/
theorem click_visible_at_final_check_still_raises :
    (fun i => decide (1 ≤ i)) 1 = true ∧
      click_until_element_visible (fun i => decide (1 ≤ i)) (fun _ => true) 1 =
        (ClickRes.cannotMakeVisible, 1) := by
  decide

/-- Claim C4: (a) with `max_retry = 3`, a visible-target that is never
visible and a click-target that is always visible, exactly 3 click
attempts are performed and the call raises the
"Cannot make ... visible after 3 tries" error; (b) whenever the loop body
runs (the visible-target is not visible at check 0 and `max_retry ≥ 1`)
and the click-target is not visible at its first check, the call raises
the "Cannot find the clicking element" error with zero clicks performed. -/
theorem click_retry_budget_and_missing_trigger :
    (∀ visT clickV : Nat → Bool, (∀ i, visT i = false) →
      (∀ i, clickV i = true) →
      click_until_element_visible visT clickV 3 =
        (ClickRes.cannotMakeVisible, 3)) ∧
    (∀ (visT clickV : Nat → Bool) (max_retry : Nat),
      visT 0 = false → 1 ≤ max_retry → clickV 0 = false →
      click_until_element_visible visT clickV max_retry =
        (ClickRes.cannotFindClicking, 0)) := by
  constructor
  · intro visT clickV hvis hclick
    simp [click_until_element_visible, clickLoop, hvis, hclick]
  · intro visT clickV max_retry hvis hmr hclick
    obtain ⟨b, rfl⟩ : ∃ b, max_retry = b + 1 :=
      ⟨max_retry - 1, by omega⟩
    simp [click_until_element_visible, clickLoop, hvis, hclick]

/-- Witness for C4: both parts applied at concrete inputs. -/
theorem click_retry_budget_witness :
    click_until_element_visible (fun _ => false) (fun _ => true) 3 =
        (ClickRes.cannotMakeVisible, 3) ∧
      click_until_element_visible (fun _ => false) (fun _ => false) 5 =
        (ClickRes.cannotFindClicking, 0) :=
  ⟨click_retry_budget_and_missing_trigger.1 (fun _ => false) (fun _ => true)
      (fun _ => rfl) (fun _ => rfl),
    click_retry_budget_and_missing_trigger.2 (fun _ => false) (fun _ => false)
      5 rfl (by omega) rfl⟩

/-! ## BaseCrawler._validate_crawl_args

Python source (`crawler.py`, lines 212-240).  A call receives keyword
arguments; the validator inspects only the *names* and the *runtime types*
of the values, so an argument mapping is modelled as an association list
`List (String × PyType)` from field name to the runtime type of the
supplied value (kwargs keys are distinct, and the values themselves never
influence control flow).  `isinstance` is modelled as equality of runtime
types.  Python's `set(...) - set(...)` differences are modelled as filters
that keep the schema/argument order; the claims concern only which names
are reported, not their order inside the message. -/

/-- Runtime types of Python values, as far as the validator observes. -/
inductive PyType where
  | int
  | str
  | bool
  | float
deriving DecidableEq, Repr

/-- The three `AssertionError` shapes raised by `_validate_crawl_args`:
the missing-required message carries every missing name, the
unknown-fields message every extra name, while a type-mismatch message
names a single field with its expected and actual types. -/
inductive VErr where
  | missingFields (names : List String)
  | unknownFields (names : List String)
  | typeMismatch (name : String) (expected actual : PyType)
deriving DecidableEq, Repr

/-- The field names mentioned by a validation error message. -/
def VErr.fields : VErr → List String
  | .missingFields l => l
  | .unknownFields l => l
  | .typeMismatch f _ _ => [f]

/-- Association-list lookup: `args[f]` / `f in args`. -/
def lookupField : List (String × PyType) → String → Option PyType
  | [], _ => none
  | (g, t) :: rest, f => if g = f then some t else lookupField rest f

/-- `f in keys(args)`. -/
def hasField (args : List (String × PyType)) (f : String) : Bool :=
  (lookupField args f).isSome

/-- Lookup in `crawler_fields() = {**required_fields, **optional_fields}`:
a dict merge in which a key present in both takes `optional_fields`'
value. -/
def crawler_fields_lookup (required optional_fields : List (String × PyType))
    (f : String) : Option PyType :=
  match lookupField optional_fields f with
  | some t => some t
  | none => lookupField required f

/-- Step 3 of `_validate_crawl_args`: iterate over `crawl_args.items()` in
order and raise on the **first** field whose runtime type differs from the
declared one.  (The `none` case cannot occur after the extra-fields check
passed; iterating past it keeps the function total.) -/
def typeCheckLoop (expected : String → Option PyType) :
    List (String × PyType) → Except VErr Unit
  | [] => Except.ok ()
  | (f, t) :: rest =>
    match expected f with
    | some e =>
      if e = t then typeCheckLoop expected rest
      else Except.error (VErr.typeMismatch f e t)
    | none => typeCheckLoop expected rest

/-- `BaseCrawler._validate_crawl_args`: missing-required check, then
extra-fields check, then per-field type check. -/
def validate_crawl_args (required optional_fields crawl_args :
    List (String × PyType)) : Except VErr Unit :=
  let missing_fields :=
    (required.map Prod.fst).filter (fun f => !(hasField crawl_args f))
  if missing_fields ≠ [] then Except.error (VErr.missingFields missing_fields)
  else
    let extra_fields :=
      (crawl_args.map Prod.fst).filter
        (fun f => !(hasField required f || hasField optional_fields f))
    if extra_fields ≠ [] then Except.error (VErr.unknownFields extra_fields)
    else typeCheckLoop (crawler_fields_lookup required optional_fields)
      crawl_args

/-- The type-check loop reports the first mismatch in argument order:
every earlier field type-checks. -/
theorem typeCheckLoop_first_error (expected : String → Option PyType) :
    ∀ (l : List (String × PyType)) (f : String) (e a : PyType),
      typeCheckLoop expected l = Except.error (VErr.typeMismatch f e a) →
      expected f = some e ∧ e ≠ a ∧
        ∃ pre post, l = pre ++ (f, a) :: post ∧
          ∀ p ∈ pre, ∀ e', expected p.1 = some e' → e' = p.2 := by
  intro l
  induction l with
  | nil => intro f e a h; exact absurd h (by simp [typeCheckLoop])
  | cons hd rest ih =>
    intro f e a h
    obtain ⟨g, t⟩ := hd
    cases hexp : expected g with
    | none =>
      simp only [typeCheckLoop, hexp] at h
      obtain ⟨h1, h2, pre, post, h3, h4⟩ := ih f e a h
      refine ⟨h1, h2, (g, t) :: pre, post, by rw [h3]; rfl, ?_⟩
      intro p hp e' he'
      rcases List.mem_cons.mp hp with rfl | hp
      · rw [hexp] at he'; exact absurd he' (by simp)
      · exact h4 p hp e' he'
    | some e' =>
      simp only [typeCheckLoop, hexp] at h
      by_cases heq : e' = t
      · rw [if_pos heq] at h
        obtain ⟨h1, h2, pre, post, h3, h4⟩ := ih f e a h
        refine ⟨h1, h2, (g, t) :: pre, post, by rw [h3]; rfl, ?_⟩
        intro p hp e'' he''
        rcases List.mem_cons.mp hp with rfl | hp
        · rw [hexp] at he''
          injection he'' with h5
          exact h5 ▸ heq
        · exact h4 p hp e'' he''
      · rw [if_neg heq] at h
        obtain ⟨rfl, rfl, rfl⟩ :
            g = f ∧ e' = e ∧ t = a := by
          cases h; exact ⟨rfl, rfl, rfl⟩
        exact ⟨hexp, heq, [], rest, rfl, by simp⟩

/-- Claim C5 (amended): the checks run in order missing → extra → type.
A missing-required failure reports exactly the set of missing required
names; an extra-fields failure (reachable only when nothing is missing)
reports exactly the set of names that are neither required nor optional;
but a type failure reports a **single** field — the first mismatched one
in argument order (all earlier fields type-check) — not every mismatched
field of the batch. -/
theorem validate_checks_in_order_and_batches
    (required optional_fields crawl_args : List (String × PyType)) :
    ((∃ f ∈ required.map Prod.fst, hasField crawl_args f = false) →
      ∃ l, validate_crawl_args required optional_fields crawl_args =
          Except.error (VErr.missingFields l) ∧
        ∀ f, f ∈ l ↔
          f ∈ required.map Prod.fst ∧ hasField crawl_args f = false) ∧
    ((∀ f ∈ required.map Prod.fst, hasField crawl_args f = true) →
      (∃ f ∈ crawl_args.map Prod.fst,
        hasField required f = false ∧ hasField optional_fields f = false) →
      ∃ l, validate_crawl_args required optional_fields crawl_args =
          Except.error (VErr.unknownFields l) ∧
        ∀ f, f ∈ l ↔ f ∈ crawl_args.map Prod.fst ∧
          hasField required f = false ∧ hasField optional_fields f = false) ∧
    (∀ f e a, validate_crawl_args required optional_fields crawl_args =
        Except.error (VErr.typeMismatch f e a) →
      crawler_fields_lookup required optional_fields f = some e ∧ e ≠ a ∧
        ∃ pre post, crawl_args = pre ++ (f, a) :: post ∧
          ∀ p ∈ pre, ∀ e',
            crawler_fields_lookup required optional_fields p.1 = some e' →
              e' = p.2) := by
  refine ⟨?_, ?_, ?_⟩
  · rintro ⟨f, hf, hmiss⟩
    have hmem : f ∈ (required.map Prod.fst).filter
        (fun f => !(hasField crawl_args f)) :=
      List.mem_filter.mpr ⟨hf, by simp [hmiss]⟩
    have hne : (required.map Prod.fst).filter
        (fun f => !(hasField crawl_args f)) ≠ [] := by
      intro hnil; rw [hnil] at hmem; exact absurd hmem (by simp)
    refine ⟨(required.map Prod.fst).filter
      (fun f => !(hasField crawl_args f)), ?_, ?_⟩
    · simp only [validate_crawl_args]
      rw [if_pos hne]
    · intro g
      rw [List.mem_filter]
      simp [Bool.not_eq_true']
  · intro hnomiss
    rintro ⟨f, hf, hr, ho⟩
    have hmnil : (required.map Prod.fst).filter
        (fun f => !(hasField crawl_args f)) = [] := by
      rw [List.filter_eq_nil_iff]
      intro g hg
      simp [hnomiss g hg]
    have hmem : f ∈ (crawl_args.map Prod.fst).filter
        (fun f => !(hasField required f || hasField optional_fields f)) :=
      List.mem_filter.mpr ⟨hf, by simp [hr, ho]⟩
    have hne : (crawl_args.map Prod.fst).filter
        (fun f => !(hasField required f || hasField optional_fields f)) ≠
          [] := by
      intro hnil; rw [hnil] at hmem; exact absurd hmem (by simp)
    refine ⟨(crawl_args.map Prod.fst).filter
      (fun f => !(hasField required f || hasField optional_fields f)),
      ?_, ?_⟩
    · simp only [validate_crawl_args]
      rw [if_neg (by simp [hmnil]), if_pos hne]
    · intro g
      rw [List.mem_filter]
      simp [Bool.not_eq_true']
  · intro f e a h
    simp only [validate_crawl_args] at h
    by_cases hm : (required.map Prod.fst).filter
        (fun f => !(hasField crawl_args f)) ≠ []
    · rw [if_pos hm] at h; cases h
    · rw [if_neg hm] at h
      by_cases hx : (crawl_args.map Prod.fst).filter
          (fun f => !(hasField required f || hasField optional_fields f)) ≠ []
      · rw [if_pos hx] at h; cases h
      · rw [if_neg hx] at h
        exact typeCheckLoop_first_error _ crawl_args f e a h

/-- Witness for C5's amended theorem: with `required = a:int`, no optionals
and empty arguments, validation fails reporting exactly the missing
field. -/
theorem validate_order_witness :
    ∃ l, validate_crawl_args [("a", PyType.int)] [] [] =
        Except.error (VErr.missingFields l) ∧
      ∀ f, f ∈ l ↔
        f ∈ List.map Prod.fst [("a", PyType.int)] ∧ hasField [] f = false :=
  (validate_checks_in_order_and_batches [("a", PyType.int)] [] []).1
    ⟨"a", by decide, by decide⟩

/-- Counterexample to claim C5 as stated: with
`required = {a: int, b: int}` and arguments `{a: "…": str, b: "…": str}`
both fields are mismatched, yet the raised error names only `a` — the
type check does **not** report every violation of its category. -/
theorem validate_type_errors_not_batched :
    validate_crawl_args [("a", PyType.int), ("b", PyType.int)] []
        [("a", PyType.str), ("b", PyType.str)] =
      Except.error (VErr.typeMismatch "a" PyType.int PyType.str) ∧
    "b" ∉ (VErr.typeMismatch "a" PyType.int PyType.str).fields ∧
    crawler_fields_lookup [("a", PyType.int), ("b", PyType.int)] [] "b" =
      some PyType.int ∧
    lookupField [("a", PyType.str), ("b", PyType.str)] "b" =
      some PyType.str :=
  ⟨rfl, by decide, rfl, rfl⟩

/-! ## BaseCrawler.parallel_crawl

Python source (`crawler.py`, lines 114-155): assert the list non-empty,
validate every argument dictionary, only then build the worker argument
sets and `Task` objects and hand them to `ParallelExecutor.run`.  The
model returns the list of created tasks on success: workers (which create
the per-task log files and browser sessions) exist only downstream of
that `Except.ok` value, so an error return means no task was created, no
log file opened and no session started. -/

/-- Errors `parallel_crawl` can raise before dispatch: the
`assert len(crawl_args_list) > 0` failure, or the first validation
failure. -/
inductive PErr where
  | emptyArgsList
  | invalidArgs (e : VErr)
deriving DecidableEq, Repr

/-- One `Task(cls._crawl_worker, params=worker_args)` unit of work: the
caller's arguments plus the `_quokka_*` bookkeeping values merged in. -/
structure CrawlTask where
  crawl_args : List (String × PyType)
  log_dir : String
  verbose : Bool
  headless : Bool
  max_retry : Nat
deriving DecidableEq, Repr

/-- The validation loop of `parallel_crawl` step 1: validate each argument
dictionary in order, raising the first failure. -/
def validateAll (required optional_fields : List (String × PyType)) :
    List (List (String × PyType)) → Except VErr Unit
  | [] => Except.ok ()
  | a :: rest =>
    match validate_crawl_args required optional_fields a with
    | Except.ok () => validateAll required optional_fields rest
    | Except.error e => Except.error e

/-- `BaseCrawler.parallel_crawl` up to the hand-off to
`ParallelExecutor.run`: returns the tasks that are dispatched.
(`n_workers` only sizes the worker pool and does not affect which tasks
are created.) -/
def parallel_crawl (required optional_fields : List (String × PyType))
    (crawl_args_list : List (List (String × PyType))) (log_dir : String)
    (headless verbose : Bool) (max_retry n_workers : Nat) :
    Except PErr (List CrawlTask) :=
  if crawl_args_list.length > 0 then
    match validateAll required optional_fields crawl_args_list with
    | Except.error e => Except.error (PErr.invalidArgs e)
    | Except.ok () =>
      Except.ok (crawl_args_list.map
        (fun a => ⟨a, log_dir, verbose, headless, max_retry⟩))
  else Except.error PErr.emptyArgsList

/-- `validateAll` succeeds exactly when every element validates. -/
theorem validateAll_ok_iff (required optional_fields :
    List (String × PyType)) :
    ∀ l : List (List (String × PyType)),
      validateAll required optional_fields l = Except.ok () ↔
        ∀ a ∈ l, validate_crawl_args required optional_fields a =
          Except.ok () := by
  intro l
  induction l with
  | nil => simp [validateAll]
  | cons hd rest ih =>
    simp only [validateAll]
    cases hv : validate_crawl_args required optional_fields hd with
    | ok u =>
      obtain rfl : u = () := rfl
      rw [ih]
      constructor
      · intro hall a ha
        rcases List.mem_cons.mp ha with rfl | ha
        · exact hv
        · exact hall a ha
      · intro hall a ha
        exact hall a (List.mem_cons_of_mem _ ha)
    | error e =>
      constructor
      · intro hcontra; cases hcontra
      · intro hall
        have := hall hd (List.mem_cons_self _ _)
        rw [hv] at this; cases this

/-- Claim C7: `parallel_crawl` fails on an empty `crawl_args_list`; if any
argument dictionary in the list fails validation, the whole call raises a
validation error — so no task is created or dispatched, hence no worker
runs, no per-task log file is created and no browser session starts; and
a task list is produced only when the list is non-empty and **every**
argument dictionary validated. -/
theorem parallel_crawl_validates_before_dispatch
    (required optional_fields : List (String × PyType))
    (crawl_args_list : List (List (String × PyType))) (log_dir : String)
    (headless verbose : Bool) (max_retry n_workers : Nat) :
    (crawl_args_list = [] →
      parallel_crawl required optional_fields crawl_args_list log_dir
          headless verbose max_retry n_workers =
        Except.error PErr.emptyArgsList) ∧
    ((∃ a ∈ crawl_args_list, ∃ e,
        validate_crawl_args required optional_fields a = Except.error e) →
      ∃ e', parallel_crawl required optional_fields crawl_args_list log_dir
          headless verbose max_retry n_workers =
        Except.error (PErr.invalidArgs e')) ∧
    (∀ tasks, parallel_crawl required optional_fields crawl_args_list
        log_dir headless verbose max_retry n_workers = Except.ok tasks →
      crawl_args_list ≠ [] ∧
        (∀ a ∈ crawl_args_list,
          validate_crawl_args required optional_fields a = Except.ok ()) ∧
        tasks = crawl_args_list.map
          (fun a => ⟨a, log_dir, verbose, headless, max_retry⟩)) := by
  refine ⟨?_, ?_, ?_⟩
  · rintro rfl
    simp [parallel_crawl]
  · rintro ⟨a, ha, e, he⟩
    have hne : crawl_args_list.length > 0 := by
      cases crawl_args_list with
      | nil => exact absurd ha (by simp)
      | cons x xs => simp
    have herr : validateAll required optional_fields crawl_args_list ≠
        Except.ok () := by
      intro hok
      have hall := (validateAll_ok_iff required optional_fields
        crawl_args_list).mp hok
      have := hall a ha
      rw [he] at this; cases this
    simp only [parallel_crawl, if_pos hne]
    cases hva : validateAll required optional_fields crawl_args_list with
    | ok u =>
      obtain rfl : u = () := rfl
      exact absurd hva herr
    | error e' => exact ⟨e', rfl⟩
  · intro tasks h
    simp only [parallel_crawl] at h
    by_cases hne : crawl_args_list.length > 0
    · rw [if_pos hne] at h
      cases hva : validateAll required optional_fields crawl_args_list with
      | ok u =>
        obtain rfl : u = () := rfl
        rw [hva] at h
        refine ⟨by intro hnil; rw [hnil] at hne; simp at hne,
          (validateAll_ok_iff _ _ _).mp hva, ?_⟩
        cases h; rfl
      | error e' => rw [hva] at h; cases h
    · rw [if_neg hne] at h; cases h

/-- Witness for C7: the empty batch is rejected. -/
theorem parallel_crawl_empty_witness :
    parallel_crawl [("a", PyType.int)] [] [] "logs" true false 5 1 =
      Except.error PErr.emptyArgsList :=
  (parallel_crawl_validates_before_dispatch [("a", PyType.int)] [] []
    "logs" true false 5 1).1 rfl

/-! ## BaseCrawler._crawl_worker

Python source (`crawler.py`, lines 157-210): per-task retry loop.
`env k` is the outcome of attempt `k`'s crawl body (`none` = success,
`some e` = the message of the exception it raised).  Instantiation and
`stop()` are modelled as succeeding; every modelled exception comes from
the body of the `async with` block, so `crawler` is not `None` in the
`except` branch.  The trace records, per attempt: the session start
(`__aenter__`), the crawl-body run, the session stop performed by
`__aexit__` (which runs on success *and* on exception), the extra
`crawler.stop()` the `except` branch issues on the already-stopped
session (a logged no-op), the error and stack-trace log lines, the
retry warning, and the per-iteration
`"Finished after n/max …"` info line.  `budget` is
`max_retry - n_retry`: the loop guard `n_retry < max_retry and not
finished` is `budget ≠ 0` before a failed attempt, and a successful
attempt returns directly because `finished = True` ends the loop with
`n_retry` unchanged.  An uncaught exception would surface as
`Except.error`; the theorem shows this never happens. -/

/-- Events a `_crawl_worker` run logs or performs, tagged by attempt. -/
inductive CrawlEv where
  | sessionStart (k : Nat)
  | crawlBody (k : Nat)
  | sessionStop (k : Nat)
  | stopInExcept (k : Nat)
  | errorLog (k : Nat) (msg : String)
  | traceLog (k : Nat)
  | retryWarn (k : Nat)
  | iterInfo (k : Nat)
deriving DecidableEq, Repr

/-- Number of attempts (session starts) in a trace. -/
def startsCount (tr : List CrawlEv) : Nat :=
  tr.countP (fun e => match e with | CrawlEv.sessionStart _ => true | _ => false)

/-- `startsCount` distributes over trace concatenation. -/
theorem startsCount_append (a b : List CrawlEv) :
    startsCount (a ++ b) = startsCount a + startsCount b := by
  simp [startsCount, List.countP_append]

/-- The retry loop of `_crawl_worker`.  Returns the final `n_retry` and
the event trace; `Except.error` would be an exception escaping the
worker. -/
def crawl_worker_loop (env : Nat → Option String) :
    Nat → Nat → Except String (Nat × List CrawlEv)
  | 0, n_retry => Except.ok (n_retry, [])
  | budget + 1, n_retry =>
    match env n_retry with
    | none =>
      Except.ok (n_retry,
        [CrawlEv.sessionStart n_retry, CrawlEv.crawlBody n_retry,
         CrawlEv.sessionStop n_retry, CrawlEv.iterInfo n_retry])
    | some e =>
      match crawl_worker_loop env budget (n_retry + 1) with
      | Except.ok (n, tr) =>
        Except.ok (n,
          [CrawlEv.sessionStart n_retry, CrawlEv.crawlBody n_retry,
           CrawlEv.sessionStop n_retry, CrawlEv.stopInExcept n_retry,
           CrawlEv.errorLog n_retry e, CrawlEv.traceLog n_retry,
           CrawlEv.retryWarn n_retry, CrawlEv.iterInfo n_retry] ++ tr)
      | Except.error msg => Except.error msg

/-- `BaseCrawler._crawl_worker`'s retryable crawl (step 2 of the
function), starting from `finished, n_retry = False, 0`. -/
def crawl_worker (env : Nat → Option String) (max_retry : Nat) :
    Except String (Nat × List CrawlEv) :=
  crawl_worker_loop env max_retry 0

/-- Full behaviour of the worker loop, relative to a starting retry
count. -/
theorem crawl_worker_loop_spec (env : Nat → Option String) :
    ∀ budget n0, ∃ n tr,
      crawl_worker_loop env budget n0 = Except.ok (n, tr) ∧
      startsCount tr ≤ budget ∧
      (∀ k e, CrawlEv.errorLog k e ∈ tr →
        env k = some e ∧ CrawlEv.traceLog k ∈ tr ∧
          CrawlEv.sessionStop k ∈ tr ∧ CrawlEv.stopInExcept k ∈ tr) ∧
      (∀ k, CrawlEv.crawlBody k ∈ tr → n0 ≤ k ∧
        (env k = none → n = k ∧ startsCount tr = k - n0 + 1)) ∧
      ((∀ k, n0 ≤ k → k < n0 + budget → env k ≠ none) →
        n = n0 + budget ∧ startsCount tr = budget) := by
  intro budget
  induction budget with
  | zero =>
    intro n0
    refine ⟨n0, [], rfl, by simp [startsCount], by simp, by simp, ?_⟩
    intro _
    simp [startsCount]
  | succ b ih =>
    intro n0
    cases henv : env n0 with
    | none =>
      refine ⟨n0, [CrawlEv.sessionStart n0, CrawlEv.crawlBody n0,
        CrawlEv.sessionStop n0, CrawlEv.iterInfo n0], ?_, ?_, ?_, ?_, ?_⟩
      · simp only [crawl_worker_loop, henv]
      · simp [startsCount]
      · intro k e hk; simp at hk
      · intro k hk
        simp only [List.mem_cons] at hk
        rcases hk with h | h | h | h | h
        all_goals first
          | (cases h; exact ⟨le_refl _, fun _ => ⟨rfl, by simp [startsCount]⟩⟩)
          | simp at h
      · intro hall
        exact absurd henv (hall n0 (le_refl _) (by omega))
    | some e =>
      obtain ⟨n, tr, hloop, hcount, herr, hbody, hexh⟩ := ih (n0 + 1)
      refine ⟨n, [CrawlEv.sessionStart n0, CrawlEv.crawlBody n0,
        CrawlEv.sessionStop n0, CrawlEv.stopInExcept n0,
        CrawlEv.errorLog n0 e, CrawlEv.traceLog n0,
        CrawlEv.retryWarn n0, CrawlEv.iterInfo n0] ++ tr, ?_, ?_, ?_, ?_, ?_⟩
      · simp only [crawl_worker_loop, henv, hloop]
      · rw [startsCount_append]
        have h8 : startsCount [CrawlEv.sessionStart n0, CrawlEv.crawlBody n0,
            CrawlEv.sessionStop n0, CrawlEv.stopInExcept n0,
            CrawlEv.errorLog n0 e, CrawlEv.traceLog n0,
            CrawlEv.retryWarn n0, CrawlEv.iterInfo n0] = 1 := rfl
        omega
      · intro k e' hk
        simp only [List.mem_append, List.mem_cons] at hk
        rcases hk with (h | h | h | h | h | h | h | h | h) | h
        all_goals try simp at h
        · obtain ⟨rfl, rfl⟩ := h
          exact ⟨henv, by simp, by simp, by simp⟩
        · obtain ⟨he1, he2, he3, he4⟩ := herr k e' h
          exact ⟨he1, by simp [he2], by simp [he3], by simp [he4]⟩
      · intro k hk
        simp only [List.mem_append, List.mem_cons] at hk
        rcases hk with (h | h | h | h | h | h | h | h | h) | h
        all_goals try simp at h
        · cases h
          refine ⟨le_refl _, ?_⟩
          intro hnone; rw [henv] at hnone; cases hnone
        · obtain ⟨hk1, hk2⟩ := hbody k h
          refine ⟨by omega, ?_⟩
          intro hnone
          obtain ⟨rfl, hc⟩ := hk2 hnone
          refine ⟨rfl, ?_⟩
          rw [startsCount_append]
          have h8 : startsCount [CrawlEv.sessionStart n0,
              CrawlEv.crawlBody n0, CrawlEv.sessionStop n0,
              CrawlEv.stopInExcept n0, CrawlEv.errorLog n0 e,
              CrawlEv.traceLog n0, CrawlEv.retryWarn n0,
              CrawlEv.iterInfo n0] = 1 := rfl
          omega
      · intro hall
        have hrest := hexh (fun k h1 h2 => hall k (by omega) (by omega))
        obtain ⟨rfl, hc⟩ := hrest
        refine ⟨by omega, ?_⟩
        rw [startsCount_append]
        have h8 : startsCount [CrawlEv.sessionStart n0, CrawlEv.crawlBody n0,
            CrawlEv.sessionStop n0, CrawlEv.stopInExcept n0,
            CrawlEv.errorLog n0 e, CrawlEv.traceLog n0,
            CrawlEv.retryWarn n0, CrawlEv.iterInfo n0] = 1 := rfl
        omega

/-- Claim C6: the worker makes at most `max_retry` attempts; every
exception raised by an attempt's crawl body is caught inside the loop
(the worker returns `Except.ok`, never `Except.error`), its message and
stack trace are logged and the session is stopped; a successful attempt
`k` ends the loop with the retry counter still `k` (not incremented) and
attempt `k` the last one; and when every attempt fails, the worker still
returns normally after exactly `max_retry` logged attempts. -/
theorem crawl_worker_isolates_failures (env : Nat → Option String)
    (max_retry : Nat) :
    ∃ n tr, crawl_worker env max_retry = Except.ok (n, tr) ∧
      startsCount tr ≤ max_retry ∧
      (∀ k e, CrawlEv.errorLog k e ∈ tr →
        env k = some e ∧ CrawlEv.traceLog k ∈ tr ∧
          CrawlEv.sessionStop k ∈ tr) ∧
      (∀ k, CrawlEv.crawlBody k ∈ tr → env k = none →
        n = k ∧ startsCount tr = k + 1) ∧
      ((∀ k, k < max_retry → env k ≠ none) →
        n = max_retry ∧ startsCount tr = max_retry) := by
  obtain ⟨n, tr, hloop, hcount, herr, hbody, hexh⟩ :=
    crawl_worker_loop_spec env max_retry 0
  refine ⟨n, tr, hloop, hcount, ?_, ?_, ?_⟩
  · intro k e hk
    obtain ⟨h1, h2, h3, _⟩ := herr k e hk
    exact ⟨h1, h2, h3⟩
  · intro k hk hnone
    obtain ⟨_, h2⟩ := hbody k hk
    obtain ⟨rfl, hc⟩ := h2 hnone
    exact ⟨rfl, by omega⟩
  · intro hall
    have := hexh (fun k _ h2 => hall k (by omega))
    omega

/-- Witness for C6 at a concrete failing environment: two attempts, both
raising, with `max_retry = 2`. -/
theorem crawl_worker_witness :
    ∃ n tr, crawl_worker (fun _ => some "boom") 2 = Except.ok (n, tr) ∧
      startsCount tr ≤ 2 ∧
      (∀ k e, CrawlEv.errorLog k e ∈ tr →
        (fun _ => some "boom") k = some e ∧ CrawlEv.traceLog k ∈ tr ∧
          CrawlEv.sessionStop k ∈ tr) ∧
      (∀ k, CrawlEv.crawlBody k ∈ tr → (fun _ => some "boom") k = none →
        n = k ∧ startsCount tr = k + 1) ∧
      ((∀ k, k < 2 → (fun _ => some "boom") k ≠ none) →
        n = 2 ∧ startsCount tr = 2) :=
  crawl_worker_isolates_failures (fun _ => some "boom") 2

/-! ## BaseCrawler.crawl

Python source (`crawler.py`, lines 30-35):

```text
async def crawl(self, *args, **kwargs):
    if self.is_running is False:
        self.debug_tool.error(f"... cannot start crawling, since the crawler has not started yet. ...")
    await self._crawl(*args, **kwargs)
```

The `if` body only logs: there is no `return` and no `raise`, so
`_crawl` runs unconditionally (on a crawler whose browser agent — and
hence page interactor — is not initialized when `is_running` is false).
An exception would be `Except.error`; the model shows the call always
returns `Except.ok` with `_crawl` invoked last. -/

/-- Observable actions of one `BaseCrawler.crawl` call. -/
inductive CrawlCallEv where
  | notRunningErrorLogged
  | crawlBodyInvoked
deriving DecidableEq, Repr

/-- `BaseCrawler.crawl`: log an error when not running, then invoke
`_crawl` regardless. -/
def BaseCrawler.crawl (is_running : Bool) :
    Except String (List CrawlCallEv) :=
  Except.ok
    ((if is_running = false then [CrawlCallEv.notRunningErrorLogged]
      else []) ++ [CrawlCallEv.crawlBodyInvoked])

/-- Claim C10: calling `crawl` on a non-running crawler logs the error
message yet neither raises nor returns early — `_crawl` is still invoked;
on a running crawler only `_crawl` runs. -/
theorem crawl_not_running_logs_and_still_crawls :
    BaseCrawler.crawl false =
      Except.ok [CrawlCallEv.notRunningErrorLogged,
        CrawlCallEv.crawlBodyInvoked] ∧
    BaseCrawler.crawl true = Except.ok [CrawlCallEv.crawlBodyInvoked] := by
  constructor <;> rfl

/-! ## ScrollHandler._scroll_load

Python source (`scroll_handler.py`, lines 120-215).  The loop is
`while True`, broken only by the stop conditions; the model runs it under
a fuel bound: `Sum.inl (T, s)` means a `break` fired during cycle `T`
(0-indexed) leaving state `s`, `Sum.inr s` means the fuel ran out after
`fuel` cycles with state `s`.  Driver streams: `cnt j` is the result of
the j-th `self._common_handler.count(selector)` poll, `env k` the scroll
offset (`get_scroll_top`) read during cycle `k`.  The per-cycle scroll
step, the callbacks and the `asyncio.sleep` change no Python state; the
state records how many scroll steps ran (`scrolls`) and how often the
progress-log branch fired (`progress_logs`).  `same_sel_count_th` is the
local variable initialised with the literal `10` on line 153 — it is not
a parameter of `_scroll_load` (nor of `scroll_load_selector`), so callers
cannot configure it. -/

/-- Parameters of `_scroll_load` that steer the loop.  `has_selector`
models `selector is not None`; `scroll_step`, `load_wait` and the
callbacks do not influence control flow and are omitted (each cycle
performs exactly one `_scroll_step` call, counted in the state). -/
structure ScrollParams where
  has_selector : Bool
  threshold : Option Nat
  log_interval : Int
  count_check_interval : Nat
  same_th : Nat
deriving DecidableEq, Repr

/-- The fixed selector-count stabilization threshold:
`same_sel_count, same_sel_count_th = 0, 10` (line 153). -/
def same_sel_count_th : Nat := 10

/-- Mutable locals of `_scroll_load`, plus the two effect counters. -/
structure ScrollSt where
  same_count : Nat
  last_top : Option Int
  count_check_counter : Nat
  n_selector : Nat
  prev_n_selector : Nat
  same_sel_count : Nat
  polls : Nat
  scrolls : Nat
  progress_logs : Nat
deriving DecidableEq, Repr

/-- `same_count = 0, last_top = None, count_check_counter = 0,
n_selector, prev_n_selector = 0, 0, same_sel_count = 0` (lines
149-153). -/
def initScrollSt : ScrollSt := ⟨0, none, 0, 0, 0, 0, 0, 0, 0⟩

/-- `threshold is not None and n_selector >= threshold` (line 175). -/
def thresholdReached : Option Nat → Nat → Bool
  | none, _ => false
  | some t, n => n ≥ t

/-- The `if selector is not None:` block of one cycle (lines 156-181). -/
def selectorStep (threshold : Option Nat) (log_interval : Int)
    (count_check_interval : Nat) (cnt : Nat → Nat) (s : ScrollSt) :
    ScrollSt × Bool :=
  let cc := s.count_check_counter + 1
  if cc ≥ count_check_interval then
    let n := cnt s.polls
    let s1 := { s with
      count_check_counter := 0
      n_selector := n
      polls := s.polls + 1 }
    let s2 :=
      if n = s1.prev_n_selector then
        { s1 with same_sel_count := s1.same_sel_count + 1 }
      else
        { s1 with same_sel_count := 0, prev_n_selector := n }
    if s2.same_sel_count ≥ same_sel_count_th then (s2, true)
    else if thresholdReached threshold n then (s2, true)
    else if (n : Int) - (s2.prev_n_selector : Int) ≥ log_interval then
      ({ s2 with
        progress_logs := s2.progress_logs + 1
        prev_n_selector := n }, false)
    else (s2, false)
  else ({ s with count_check_counter := cc }, false)

/-- Lines 195-206: read the scroll offset and update the
position-stability counter, breaking at `same_th`. -/
def topStep (same_th : Nat) (top : Int) (s : ScrollSt) : ScrollSt × Bool :=
  if s.last_top = some top then
    let sc := s.same_count + 1
    if sc ≥ same_th then
      ({ s with same_count := sc, last_top := some top }, true)
    else
      ({ s with same_count := sc, last_top := some top }, false)
  else ({ s with same_count := 0, last_top := some top }, false)

/-- One full cycle of the `while True` loop: the selector block (which may
`break` before any scrolling), then one `_scroll_step`, callbacks and
sleep, then the offset-stability block. -/
def scrollCycle (p : ScrollParams) (cnt : Nat → Nat) (top : Int)
    (s : ScrollSt) : ScrollSt × Bool :=
  let r := if p.has_selector then
      selectorStep p.threshold p.log_interval p.count_check_interval cnt s
    else (s, false)
  if r.2 then r
  else topStep p.same_th top { r.1 with scrolls := r.1.scrolls + 1 }

/-- Run the loop for at most `fuel` cycles starting at cycle `k`. -/
def scrollRun (p : ScrollParams) (cnt : Nat → Nat) (env : Nat → Int) :
    Nat → Nat → ScrollSt → (Nat × ScrollSt) ⊕ ScrollSt
  | 0, _, s => Sum.inr s
  | fuel + 1, k, s =>
    let r := scrollCycle p cnt (env k) s
    if r.2 then Sum.inl (k, r.1)
    else scrollRun p cnt env fuel (k + 1) r.1

/-- `ScrollHandler._scroll_load`, from its initial state. -/
def scroll_load (p : ScrollParams) (cnt : Nat → Nat) (env : Nat → Int)
    (fuel : Nat) : (Nat × ScrollSt) ⊕ ScrollSt :=
  scrollRun p cnt env fuel 0 initScrollSt

/-- Final state of a (finished or cut-off) run. -/
def scrollFinal : (Nat × ScrollSt) ⊕ ScrollSt → ScrollSt
  | Sum.inl r => r.2
  | Sum.inr s => s

/-- A `break` inside the first `fuel` cycles stays a `break` under more
fuel. -/
theorem scrollRun_split_inl (p : ScrollParams) (cnt : Nat → Nat)
    (env : Nat → Int) :
    ∀ (a b k : Nat) (s : ScrollSt) (r : Nat × ScrollSt),
      scrollRun p cnt env a k s = Sum.inl r →
      scrollRun p cnt env (a + b) k s = Sum.inl r := by
  intro a
  induction a with
  | zero => intro b k s r h; cases h
  | succ a ih =>
    intro b k s r h
    have hfe : a + 1 + b = (a + b) + 1 := by omega
    rw [hfe]
    simp only [scrollRun] at h ⊢
    by_cases hb : (scrollCycle p cnt (env k) s).2
    · simpa [hb] using h
    · simp only [hb, Bool.false_eq_true, if_false] at h ⊢
      exact ih b (k + 1) _ r h

/-- Fuel that runs out composes: run `a` cycles, then `b` more. -/
theorem scrollRun_split_inr (p : ScrollParams) (cnt : Nat → Nat)
    (env : Nat → Int) :
    ∀ (a b k : Nat) (s s' : ScrollSt),
      scrollRun p cnt env a k s = Sum.inr s' →
      scrollRun p cnt env (a + b) k s = scrollRun p cnt env b (k + a) s' := by
  intro a
  induction a with
  | zero =>
    intro b k s s' h
    cases h
    simp
  | succ a ih =>
    intro b k s s' h
    have hfe : a + 1 + b = (a + b) + 1 := by omega
    rw [hfe]
    simp only [scrollRun] at h ⊢
    by_cases hb : (scrollCycle p cnt (env k) s).2
    · simp [hb] at h
    · simp only [hb, Bool.false_eq_true, if_false] at h ⊢
      rw [ih b (k + 1) _ s' h]
      have : k + 1 + a = k + (a + 1) := by omega
      rw [this]

/-- A `break` happens at a cycle index inside the fuel window. -/
theorem scrollRun_inl_bounds (p : ScrollParams) (cnt : Nat → Nat)
    (env : Nat → Int) :
    ∀ (fuel k : Nat) (s s2 : ScrollSt) (T : Nat),
      scrollRun p cnt env fuel k s = Sum.inl (T, s2) →
      k ≤ T ∧ T < k + fuel := by
  intro fuel
  induction fuel with
  | zero => intro k s s2 T h; cases h
  | succ fuel ih =>
    intro k s s2 T h
    simp only [scrollRun] at h
    by_cases hb : (scrollCycle p cnt (env k) s).2
    · simp only [hb, if_true] at h
      obtain ⟨rfl, rfl⟩ : k = T ∧ (scrollCycle p cnt (env k) s).1 = s2 := by
        cases h; exact ⟨rfl, rfl⟩
      omega
    · simp only [hb, Bool.false_eq_true, if_false] at h
      have := ih (k + 1) _ s2 T h
      omega

/-- Every branch of the offset block leaves `last_top = top` behind
(line 206; in the break branch the previous value already equals `top`). -/
theorem topStep_last_top (st : Nat) (top : Int) (s : ScrollSt) :
    ((topStep st top s).1).last_top = some top := by
  simp only [topStep]
  by_cases h1 : s.last_top = some top
  · by_cases h2 : s.same_count + 1 ≥ st
    · simp [h1, h2]
    · simp [h1, h2]
  · simp [h1]

/-- The offset block never touches the scroll counter. -/
theorem topStep_scrolls (st : Nat) (top : Int) (s : ScrollSt) :
    ((topStep st top s).1).scrolls = s.scrolls := by
  simp only [topStep]
  by_cases h1 : s.last_top = some top
  · by_cases h2 : s.same_count + 1 ≥ st
    · simp [h1, h2]
    · simp [h1, h2]
  · simp [h1]

/-- The offset block never touches the selector-side fields. -/
theorem topStep_preserves (st : Nat) (top : Int) (s : ScrollSt) :
    ((topStep st top s).1).polls = s.polls ∧
    ((topStep st top s).1).count_check_counter = s.count_check_counter ∧
    ((topStep st top s).1).prev_n_selector = s.prev_n_selector ∧
    ((topStep st top s).1).same_sel_count = s.same_sel_count ∧
    ((topStep st top s).1).progress_logs = s.progress_logs := by
  simp only [topStep]
  by_cases h1 : s.last_top = some top
  · by_cases h2 : s.same_count + 1 ≥ st
    · simp [h1, h2]
    · simp [h1, h2]
  · simp [h1]

/-- The offset block breaks when the offset repeats and the counter
reaches `same_th`. -/
theorem topStep_break (st : Nat) (top : Int) (s : ScrollSt)
    (h1 : s.last_top = some top) (h2 : st ≤ s.same_count + 1) :
    topStep st top s =
      ({ s with
        same_count := s.same_count + 1
        last_top := some top }, true) := by
  simp [topStep, h1, h2]

/-- The offset block continues, counting, when the offset repeats below
the threshold. -/
theorem topStep_cont_eq (st : Nat) (top : Int) (s : ScrollSt)
    (h1 : s.last_top = some top) (h2 : ¬ st ≤ s.same_count + 1) :
    topStep st top s =
      ({ s with
        same_count := s.same_count + 1
        last_top := some top }, false) := by
  simp [topStep, h1, h2]

/-- The offset block resets the counter when the offset moved. -/
theorem topStep_cont_ne (st : Nat) (top : Int) (s : ScrollSt)
    (h1 : ¬ s.last_top = some top) :
    topStep st top s =
      ({ s with
        same_count := 0
        last_top := some top }, false) := by
  simp [topStep, h1]

/-- Without a selector, a cycle is one scroll step plus the offset
block. -/
theorem scrollCycle_nosel (p : ScrollParams) (cnt : Nat → Nat) (top : Int)
    (s : ScrollSt) (hsel : p.has_selector = false) :
    scrollCycle p cnt top s =
      topStep p.same_th top { s with scrolls := s.scrolls + 1 } := by
  simp [scrollCycle, hsel]

/-- Without a selector, every cycle performs exactly one scroll step. -/
theorem scrollCycle_nosel_scrolls (p : ScrollParams) (cnt : Nat → Nat)
    (top : Int) (s : ScrollSt) (hsel : p.has_selector = false) :
    ((scrollCycle p cnt top s).1).scrolls = s.scrolls + 1 := by
  rw [scrollCycle_nosel p cnt top s hsel]
  have := topStep_scrolls p.same_th top { s with scrolls := s.scrolls + 1 }
  simpa using this

/-- Without a selector, a run that exhausts its fuel scrolled once per
cycle. -/
theorem scrollRun_nosel_scrolls_inr (p : ScrollParams) (cnt : Nat → Nat)
    (env : Nat → Int) (hsel : p.has_selector = false) :
    ∀ (fuel k : Nat) (s s' : ScrollSt),
      scrollRun p cnt env fuel k s = Sum.inr s' →
      s'.scrolls = s.scrolls + fuel := by
  intro fuel
  induction fuel with
  | zero => intro k s s' h; cases h; rfl
  | succ fuel ih =>
    intro k s s' h
    simp only [scrollRun] at h
    by_cases hb : (scrollCycle p cnt (env k) s).2
    · simp [hb] at h
    · simp only [hb, Bool.false_eq_true, if_false] at h
      have := ih (k + 1) _ s' h
      rw [scrollCycle_nosel_scrolls p cnt (env k) s hsel] at this
      omega

/-- Without a selector, a run that breaks during cycle `T` (having started
at cycle `k`) performed `T - k + 1` scroll steps. -/
theorem scrollRun_nosel_scrolls_inl (p : ScrollParams) (cnt : Nat → Nat)
    (env : Nat → Int) (hsel : p.has_selector = false) :
    ∀ (fuel k : Nat) (s : ScrollSt) (T : Nat) (s2 : ScrollSt),
      scrollRun p cnt env fuel k s = Sum.inl (T, s2) →
      s2.scrolls = s.scrolls + (T - k) + 1 := by
  intro fuel
  induction fuel with
  | zero => intro k s T s2 h; cases h
  | succ fuel ih =>
    intro k s T s2 h
    simp only [scrollRun] at h
    by_cases hb : (scrollCycle p cnt (env k) s).2
    · simp only [hb, if_true] at h
      obtain ⟨rfl, rfl⟩ : k = T ∧ (scrollCycle p cnt (env k) s).1 = s2 := by
        cases h; exact ⟨rfl, rfl⟩
      have := scrollCycle_nosel_scrolls p cnt (env k) s hsel
      simp only [Nat.sub_self]
      omega
    · simp only [hb, Bool.false_eq_true, if_false] at h
      have hbnd := scrollRun_inl_bounds p cnt env fuel (k + 1) _ s2 T h
      have := ih (k + 1) _ T s2 h
      rw [scrollCycle_nosel_scrolls p cnt (env k) s hsel] at this
      omega

/-- A cycle that continues records the offset it just read. -/
theorem scrollRun_nosel_last_top (p : ScrollParams) (cnt : Nat → Nat)
    (env : Nat → Int) (hsel : p.has_selector = false) :
    ∀ (fuel k : Nat) (s s' : ScrollSt), 1 ≤ fuel →
      scrollRun p cnt env fuel k s = Sum.inr s' →
      s'.last_top = some (env (k + fuel - 1)) := by
  intro fuel
  induction fuel with
  | zero => intro k s s' h1 h2; omega
  | succ fuel ih =>
    intro k s s' h1 h2
    simp only [scrollRun] at h2
    by_cases hb : (scrollCycle p cnt (env k) s).2
    · simp [hb] at h2
    · simp only [hb, Bool.false_eq_true, if_false] at h2
      cases Nat.eq_zero_or_pos fuel with
      | inl hf =>
        subst hf
        simp only [scrollRun] at h2
        cases h2
        rw [scrollCycle_nosel p cnt (env k) s hsel]
        rw [show k + (0 + 1) - 1 = k from by omega]
        rw [topStep_last_top]
      | inr hf =>
        have h3 := ih (k + 1) _ s' hf h2
        rw [show k + (fuel + 1) - 1 = k + 1 + fuel - 1 from by omega]
        exact h3

/-- Once the offset stream is constant and the recorded offset already
equals the constant, the loop breaks within `same_th` further cycles. -/
theorem scrollRun_nosel_stops_in_const (p : ScrollParams) (cnt : Nat → Nat)
    (env : Nat → Int) (hsel : p.has_selector = false) (c : Int) (N : Nat)
    (hc : ∀ j, N ≤ j → env j = c) :
    ∀ (m k : Nat) (s : ScrollSt), N ≤ k → s.last_top = some c →
      p.same_th ≤ s.same_count + m + 1 →
      ∃ T s2, scrollRun p cnt env (m + 1) k s = Sum.inl (T, s2) ∧
        k ≤ T ∧ T ≤ k + m := by
  intro m
  induction m with
  | zero =>
    intro k s hk hlast hth
    have henv : env k = c := hc k hk
    have h1 : ({ s with scrolls := s.scrolls + 1 } : ScrollSt).last_top =
        some (env k) := by simp [henv, hlast]
    have h2 : p.same_th ≤
        ({ s with scrolls := s.scrolls + 1 } : ScrollSt).same_count + 1 := by
      simp only []
      omega
    obtain ⟨s4, hq⟩ : ∃ s4, scrollCycle p cnt (env k) s = (s4, true) :=
      ⟨_, by rw [scrollCycle_nosel p cnt (env k) s hsel,
        topStep_break _ _ _ h1 h2]⟩
    refine ⟨k, s4, ?_, le_refl k, by omega⟩
    simp [scrollRun, hq]
  | succ m ih =>
    intro k s hk hlast hth
    have henv : env k = c := hc k hk
    have h1 : ({ s with scrolls := s.scrolls + 1 } : ScrollSt).last_top =
        some (env k) := by simp [henv, hlast]
    by_cases hstop : p.same_th ≤ s.same_count + 1
    · have h2 : p.same_th ≤
          ({ s with scrolls := s.scrolls + 1 } : ScrollSt).same_count + 1 := by
        simp only []
        omega
      obtain ⟨s4, hq⟩ : ∃ s4, scrollCycle p cnt (env k) s = (s4, true) :=
        ⟨_, by rw [scrollCycle_nosel p cnt (env k) s hsel,
          topStep_break _ _ _ h1 h2]⟩
      refine ⟨k, s4, ?_, le_refl k, by omega⟩
      simp [scrollRun, hq]
    · have h2 : ¬ p.same_th ≤
          ({ s with scrolls := s.scrolls + 1 } : ScrollSt).same_count + 1 := by
        simp only []
        omega
      obtain ⟨s4, hq⟩ : ∃ s4, scrollCycle p cnt (env k) s = (s4, false) :=
        ⟨_, by rw [scrollCycle_nosel p cnt (env k) s hsel,
          topStep_cont_eq _ _ _ h1 h2]⟩
      have hlast4 : s4.last_top = some c := by
        have h5 : (scrollCycle p cnt (env k) s).1.last_top = s4.last_top := by
          rw [hq]
        rw [scrollCycle_nosel p cnt (env k) s hsel,
          topStep_cont_eq _ _ _ h1 h2] at h5
        simp only [] at h5
        rw [← h5, henv]
      have hsame4 : s4.same_count = s.same_count + 1 := by
        have h5 : (scrollCycle p cnt (env k) s).1.same_count =
            s4.same_count := by
          rw [hq]
        rw [scrollCycle_nosel p cnt (env k) s hsel,
          topStep_cont_eq _ _ _ h1 h2] at h5
        simp only [] at h5
        omega
      have hrun : scrollRun p cnt env (m + 1 + 1) k s =
          scrollRun p cnt env (m + 1) (k + 1) s4 := by
        simp [scrollRun, hq]
      obtain ⟨T, s2, hT, hTl, hTu⟩ := ih (k + 1) s4 (by omega)
        hlast4 (by omega)
      exact ⟨T, s2, by rw [hrun]; exact hT, by omega, by omega⟩

/-- Claim C1: when `_scroll_load` runs without a selector and the scroll
offset stream is constant from read `N` on (so the reads have an
arbitrarily long suffix of identical values), the loop breaks at some
cycle `T ≤ N + same_th` — within the constant suffix — and the run
performed exactly `T + 1` scroll steps, none after the break. -/
theorem scroll_load_position_stabilizes (p : ScrollParams)
    (cnt : Nat → Nat) (env : Nat → Int) (N : Nat)
    (hsel : p.has_selector = false) (hth : 1 ≤ p.same_th)
    (hconst : ∀ k, N ≤ k → env k = env N) :
    ∃ T s, scroll_load p cnt env (N + 1 + p.same_th) = Sum.inl (T, s) ∧
      T ≤ N + p.same_th ∧ s.scrolls = T + 1 := by
  cases h1 : scrollRun p cnt env (N + 1) 0 initScrollSt with
  | inl r =>
    obtain ⟨T, s2⟩ := r
    have hb := scrollRun_inl_bounds p cnt env (N + 1) 0 initScrollSt s2 T h1
    have hsc := scrollRun_nosel_scrolls_inl p cnt env hsel (N + 1) 0
      initScrollSt T s2 h1
    refine ⟨T, s2, ?_, by omega, ?_⟩
    · rw [scroll_load]
      exact scrollRun_split_inl p cnt env (N + 1) p.same_th 0 initScrollSt
        (T, s2) h1
    · simp only [initScrollSt] at hsc
      omega
  | inr s' =>
    have hlast : s'.last_top = some (env N) := by
      have h2 := scrollRun_nosel_last_top p cnt env hsel (N + 1) 0
        initScrollSt s' (by omega) h1
      rw [show 0 + (N + 1) - 1 = N by omega] at h2
      exact h2
    have hscr : s'.scrolls = N + 1 := by
      have h2 := scrollRun_nosel_scrolls_inr p cnt env hsel (N + 1) 0
        initScrollSt s' h1
      simp only [initScrollSt] at h2
      omega
    obtain ⟨T, s2, hrun2, hTl, hTu⟩ := scrollRun_nosel_stops_in_const p cnt
      env hsel (env N) N hconst (p.same_th - 1) (N + 1) s' (by omega)
      hlast (by omega)
    rw [show p.same_th - 1 + 1 = p.same_th by omega] at hrun2
    have hmain : scroll_load p cnt env (N + 1 + p.same_th) =
        Sum.inl (T, s2) := by
      rw [scroll_load, scrollRun_split_inr p cnt env (N + 1) p.same_th 0
        initScrollSt s' h1]
      simpa using hrun2
    have hsc2 := scrollRun_nosel_scrolls_inl p cnt env hsel p.same_th
      (N + 1) s' T s2 hrun2
    exact ⟨T, s2, hmain, by omega, by omega⟩

/-- Witness for C1: constant zero offsets, `same_th = 2`, suffix start
`N = 1`. -/
theorem scroll_load_position_witness :
    ∃ T s, scroll_load ⟨false, none, 100, 5, 2⟩ (fun _ => 0)
        (fun _ => (0 : Int)) (1 + 1 + 2) = Sum.inl (T, s) ∧
      T ≤ 1 + 2 ∧ s.scrolls = T + 1 :=
  scroll_load_position_stabilizes ⟨false, none, 100, 5, 2⟩ (fun _ => 0)
    (fun _ => (0 : Int)) 1 rfl (by decide) (fun k _ => rfl)

/-- Selector-side fields survive the offset block, individually. -/
theorem topStep_polls (st : Nat) (top : Int) (s : ScrollSt) :
    ((topStep st top s).1).polls = s.polls :=
  (topStep_preserves st top s).1

/-- The offset block keeps the poll counter. -/
theorem topStep_cc (st : Nat) (top : Int) (s : ScrollSt) :
    ((topStep st top s).1).count_check_counter = s.count_check_counter :=
  (topStep_preserves st top s).2.1

/-- The offset block keeps the recorded previous count. -/
theorem topStep_prev (st : Nat) (top : Int) (s : ScrollSt) :
    ((topStep st top s).1).prev_n_selector = s.prev_n_selector :=
  (topStep_preserves st top s).2.2.1

/-- The offset block keeps the selector-stability counter. -/
theorem topStep_same_sel (st : Nat) (top : Int) (s : ScrollSt) :
    ((topStep st top s).1).same_sel_count = s.same_sel_count :=
  (topStep_preserves st top s).2.2.2.1

/-- The offset block keeps the progress-log counter. -/
theorem topStep_progress (st : Nat) (top : Int) (s : ScrollSt) :
    ((topStep st top s).1).progress_logs = s.progress_logs :=
  (topStep_preserves st top s).2.2.2.2

/-- A breaking cycle ends the run at its own index. -/
theorem scrollRun_break (p : ScrollParams) (cnt : Nat → Nat)
    (env : Nat → Int) (fuel k : Nat) (s : ScrollSt)
    (h : (scrollCycle p cnt (env k) s).2 = true) :
    scrollRun p cnt env (fuel + 1) k s =
      Sum.inl (k, (scrollCycle p cnt (env k) s).1) := by
  simp [scrollRun, h]

/-- A continuing cycle hands its state to the next cycle. -/
theorem scrollRun_cont (p : ScrollParams) (cnt : Nat → Nat)
    (env : Nat → Int) (fuel k : Nat) (s : ScrollSt)
    (h : (scrollCycle p cnt (env k) s).2 = false) :
    scrollRun p cnt env (fuel + 1) k s =
      scrollRun p cnt env fuel (k + 1) (scrollCycle p cnt (env k) s).1 := by
  simp [scrollRun, h]

/-- With a selector, a cycle whose selector block breaks is that block
alone (no scroll step, no offset read). -/
theorem scrollCycle_sel_break (p : ScrollParams) (cnt : Nat → Nat)
    (top : Int) (s : ScrollSt) (hsel : p.has_selector = true)
    (hflag : (selectorStep p.threshold p.log_interval
      p.count_check_interval cnt s).2 = true) :
    scrollCycle p cnt top s =
      selectorStep p.threshold p.log_interval p.count_check_interval cnt s := by
  simp [scrollCycle, hsel, hflag]

/-- With a selector, a cycle whose selector block continues performs the
scroll step and the offset block. -/
theorem scrollCycle_sel_cont (p : ScrollParams) (cnt : Nat → Nat)
    (top : Int) (s : ScrollSt) (hsel : p.has_selector = true)
    (hflag : (selectorStep p.threshold p.log_interval
      p.count_check_interval cnt s).2 = false) :
    scrollCycle p cnt top s =
      topStep p.same_th top
        { (selectorStep p.threshold p.log_interval p.count_check_interval
            cnt s).1 with
          scrolls := (selectorStep p.threshold p.log_interval
            p.count_check_interval cnt s).1.scrolls + 1 } := by
  simp [scrollCycle, hsel, hflag]

/-- A cycle below the poll interval only ticks the counter. -/
theorem selectorStep_nopoll (threshold : Option Nat) (log_interval : Int)
    (ci : Nat) (cnt : Nat → Nat) (s : ScrollSt)
    (h : ¬ s.count_check_counter + 1 ≥ ci) :
    selectorStep threshold log_interval ci cnt s =
      ({ s with count_check_counter := s.count_check_counter + 1 },
        false) := by
  simp [selectorStep, h]

/-- A polling selector block that does not break: the poll is recorded
(`polls + 1`, counter reset, `prev_n_selector` equal to the fresh count),
the stability counter stays below the fixed threshold, it increments
exactly when the fresh count equals the recorded one, and the
offset-side fields are untouched. -/
theorem selectorStep_poll_cont (threshold : Option Nat) (log_interval : Int)
    (ci : Nat) (cnt : Nat → Nat) (s : ScrollSt)
    (hpoll : s.count_check_counter + 1 ≥ ci)
    (hflag : (selectorStep threshold log_interval ci cnt s).2 = false) :
    (selectorStep threshold log_interval ci cnt s).1.polls = s.polls + 1 ∧
    (selectorStep threshold log_interval ci cnt s).1.count_check_counter =
      0 ∧
    (selectorStep threshold log_interval ci cnt s).1.prev_n_selector =
      cnt s.polls ∧
    (selectorStep threshold log_interval ci cnt s).1.same_sel_count <
      same_sel_count_th ∧
    (cnt s.polls = s.prev_n_selector →
      (selectorStep threshold log_interval ci cnt s).1.same_sel_count =
        s.same_sel_count + 1) := by
  simp only [selectorStep, ge_iff_le] at hflag ⊢
  rw [if_pos hpoll] at hflag ⊢
  by_cases heq : cnt s.polls = s.prev_n_selector
  · by_cases hb1 : same_sel_count_th ≤ s.same_sel_count + 1
    · simp [heq, hb1] at hflag
    · by_cases hb2 : thresholdReached threshold s.prev_n_selector = true
      · simp [heq, hb1, hb2] at hflag
      · by_cases hl : log_interval ≤ (0 : Int)
        · simp [heq, hb1, hb2, hl]
          omega
        · simp [heq, hb1, hb2, hl]
          omega
  · by_cases hb2 : thresholdReached threshold (cnt s.polls) = true
    · simp [heq, hb2, same_sel_count_th] at hflag
    · by_cases hl : log_interval ≤ (0 : Int)
      · simp [heq, hb2, hl, same_sel_count_th]
      · simp [heq, hb2, hl, same_sel_count_th]

/-- From any non-broken state, the run either breaks within one poll
interval or reaches the state right after the next poll: `polls`
advanced by one, counter reset, `prev_n_selector` holding the fresh
count, the stability counter below the threshold and incremented when
the count did not change. -/
theorem scrollRun_poll_progress (p : ScrollParams) (cnt : Nat → Nat)
    (env : Nat → Int) (hsel : p.has_selector = true) :
    ∀ (d k : Nat) (s : ScrollSt), 1 ≤ d →
      s.count_check_counter + d = max p.count_check_interval 1 →
      (∃ T s2, scrollRun p cnt env d k s = Sum.inl (T, s2)) ∨
      (∃ s', scrollRun p cnt env d k s = Sum.inr s' ∧
        s'.polls = s.polls + 1 ∧ s'.count_check_counter = 0 ∧
        s'.prev_n_selector = cnt s.polls ∧
        s'.same_sel_count < same_sel_count_th ∧
        (cnt s.polls = s.prev_n_selector →
          s'.same_sel_count = s.same_sel_count + 1)) := by
  intro d
  induction d with
  | zero => intro k s h1 h2; omega
  | succ d ih =>
    intro k s h1 h2
    by_cases hbrk : (scrollCycle p cnt (env k) s).2 = true
    · exact Or.inl ⟨k, (scrollCycle p cnt (env k) s).1,
        scrollRun_break p cnt env d k s hbrk⟩
    · have hbrk' : (scrollCycle p cnt (env k) s).2 = false := by
        simpa using hbrk
      have hrun := scrollRun_cont p cnt env d k s hbrk'
      by_cases hd : d = 0
      · subst hd
        have hmax : p.count_check_interval ≤ max p.count_check_interval 1 :=
          Nat.le_max_left _ _
        have hpoll : s.count_check_counter + 1 ≥ p.count_check_interval := by
          omega
        have hflag : (selectorStep p.threshold p.log_interval
            p.count_check_interval cnt s).2 = false := by
          by_contra hcon
          have hcon' : (selectorStep p.threshold p.log_interval
              p.count_check_interval cnt s).2 = true := by simpa using hcon
          have hcb := scrollCycle_sel_break p cnt (env k) s hsel hcon'
          rw [hcb, hcon'] at hbrk'
          cases hbrk'
        obtain ⟨g1, g2, g3, g4, g5⟩ := selectorStep_poll_cont p.threshold
          p.log_interval p.count_check_interval cnt s hpoll hflag
        have hcyc := scrollCycle_sel_cont p cnt (env k) s hsel hflag
        right
        refine ⟨(scrollCycle p cnt (env k) s).1, ?_, ?_, ?_, ?_, ?_, ?_⟩
        · rw [hrun]
          rfl
        · rw [hcyc, topStep_polls]
          simpa using g1
        · rw [hcyc, topStep_cc]
          simpa using g2
        · rw [hcyc, topStep_prev]
          simpa using g3
        · rw [hcyc, topStep_same_sel]
          simpa using g4
        · intro he
          rw [hcyc, topStep_same_sel]
          simpa using g5 he
      · have hnopoll : ¬ s.count_check_counter + 1 ≥
            p.count_check_interval := by
          rcases le_or_lt p.count_check_interval 1 with hle | hlt
          · rw [Nat.max_eq_right hle] at h2
            omega
          · rw [Nat.max_eq_left (le_of_lt hlt)] at h2
            omega
        have hstep := selectorStep_nopoll p.threshold p.log_interval
          p.count_check_interval cnt s hnopoll
        have hflag : (selectorStep p.threshold p.log_interval
            p.count_check_interval cnt s).2 = false := by rw [hstep]
        have hcyc := scrollCycle_sel_cont p cnt (env k) s hsel hflag
        have hq_polls : (scrollCycle p cnt (env k) s).1.polls = s.polls := by
          rw [hcyc, topStep_polls]
          simp [hstep]
        have hq_cc : (scrollCycle p cnt (env k) s).1.count_check_counter =
            s.count_check_counter + 1 := by
          rw [hcyc, topStep_cc]
          simp [hstep]
        have hq_prev : (scrollCycle p cnt (env k) s).1.prev_n_selector =
            s.prev_n_selector := by
          rw [hcyc, topStep_prev]
          simp [hstep]
        have hq_ss : (scrollCycle p cnt (env k) s).1.same_sel_count =
            s.same_sel_count := by
          rw [hcyc, topStep_same_sel]
          simp [hstep]
        rcases ih (k + 1) (scrollCycle p cnt (env k) s).1 (by omega)
            (by rw [hq_cc]; omega) with
          ⟨T, s2, h⟩ | ⟨s', h, g1, g2, g3, g4, g5⟩
        · exact Or.inl ⟨T, s2, by rw [hrun]; exact h⟩
        · right
          refine ⟨s', by rw [hrun]; exact h, ?_, g2, ?_, g4, ?_⟩
          · rw [g1, hq_polls]
          · rw [g3, hq_polls]
          · intro he
            have h6 := g5 (by rw [hq_polls, hq_prev]; exact he)
            rw [h6, hq_ss]

/-- Once every future poll returns the already-recorded count, the
stability counter climbs by one per poll and the loop breaks within
`same_sel_count_th` further poll intervals. -/
theorem scrollRun_selector_stops (p : ScrollParams) (cnt : Nat → Nat)
    (env : Nat → Int) (hsel : p.has_selector = true) (M : Nat)
    (hc : ∀ j, M ≤ j → cnt j = cnt M) :
    ∀ (t k : Nat) (s : ScrollSt), M ≤ s.polls →
      s.prev_n_selector = cnt M → s.count_check_counter = 0 →
      s.same_sel_count < same_sel_count_th →
      same_sel_count_th ≤ s.same_sel_count + t →
      ∃ T s2, scrollRun p cnt env (t * max p.count_check_interval 1) k s =
        Sum.inl (T, s2) := by
  intro t
  induction t with
  | zero => intro k s _ _ _ h4 h5; omega
  | succ t ih =>
    intro k s hp hprev hcc hlt hge
    have hfe : (t + 1) * max p.count_check_interval 1 =
        max p.count_check_interval 1 + t * max p.count_check_interval 1 := by
      ring
    rw [hfe]
    have hd1 : 1 ≤ max p.count_check_interval 1 := Nat.le_max_right _ _
    rcases scrollRun_poll_progress p cnt env hsel
        (max p.count_check_interval 1) k s hd1 (by omega) with
      ⟨T, s2, h⟩ | ⟨s', h, g1, g2, g3, g4, g5⟩
    · exact ⟨T, s2, scrollRun_split_inl p cnt env _ _ k s (T, s2) h⟩
    · have hcnt : cnt s.polls = cnt M := hc s.polls hp
      have hss : s'.same_sel_count = s.same_sel_count + 1 :=
        g5 (by rw [hcnt, hprev])
      obtain ⟨T, s2, h2⟩ := ih (k + max p.count_check_interval 1) s'
        (by omega) (by rw [g3, hcnt]) g2 g4 (by omega)
      refine ⟨T, s2, ?_⟩
      rw [scrollRun_split_inr p cnt env _ _ k s s' h]
      exact h2

/-- From a counter-aligned state, `j` poll intervals either break the run
or reach the state right after the `j`-th further poll. -/
theorem scrollRun_polls_progress (p : ScrollParams) (cnt : Nat → Nat)
    (env : Nat → Int) (hsel : p.has_selector = true) :
    ∀ (j k : Nat) (s : ScrollSt), s.count_check_counter = 0 →
      (∃ T s2, scrollRun p cnt env (j * max p.count_check_interval 1) k s =
        Sum.inl (T, s2)) ∨
      (∃ s', scrollRun p cnt env (j * max p.count_check_interval 1) k s =
          Sum.inr s' ∧
        s'.polls = s.polls + j ∧ s'.count_check_counter = 0 ∧
        (1 ≤ j → s'.prev_n_selector = cnt (s.polls + j - 1) ∧
          s'.same_sel_count < same_sel_count_th)) := by
  intro j
  induction j with
  | zero =>
    intro k s hcc
    right
    exact ⟨s, by simp [scrollRun], by omega, hcc,
      fun h => absurd h (by omega)⟩
  | succ j ih =>
    intro k s hcc
    have hfe : (j + 1) * max p.count_check_interval 1 =
        max p.count_check_interval 1 + j * max p.count_check_interval 1 := by
      ring
    rw [hfe]
    have hd1 : 1 ≤ max p.count_check_interval 1 := Nat.le_max_right _ _
    rcases scrollRun_poll_progress p cnt env hsel
        (max p.count_check_interval 1) k s hd1 (by omega) with
      ⟨T, s2, h⟩ | ⟨s1, h, g1, g2, g3, g4, g5⟩
    · exact Or.inl ⟨T, s2, scrollRun_split_inl p cnt env _ _ k s (T, s2) h⟩
    · rcases ih (k + max p.count_check_interval 1) s1 g2 with
        ⟨T, s2, h2⟩ | ⟨s', h2, f1, f2, f3⟩
      · refine Or.inl ⟨T, s2, ?_⟩
        rw [scrollRun_split_inr p cnt env _ _ k s s1 h]
        exact h2
      · right
        refine ⟨s', ?_, by omega, f2, ?_⟩
        · rw [scrollRun_split_inr p cnt env _ _ k s s1 h]
          exact h2
        · intro _
          cases Nat.eq_zero_or_pos j with
          | inl hj =>
            subst hj
            have hs : s1 = s' := by
              simpa [scrollRun] using h2
            constructor
            · rw [← hs, g3]
              simp
            · rw [← hs]; exact g4
          | inr hj =>
            obtain ⟨f3a, f3b⟩ := f3 hj
            constructor
            · rw [f3a, g1]
              congr 1
              omega
            · exact f3b

/-- Claim C2: with a selector, once the polled count stops changing (the
count stream is constant from poll `M` on — in particular after 10
consecutive unchanged polls), `_scroll_load` terminates regardless of how
the scroll offsets behave; the stabilization threshold is the fixed
constant `10`, baked into the function body rather than exposed as a
parameter. -/
theorem scroll_load_selector_count_stabilizes (p : ScrollParams)
    (cnt : Nat → Nat) (env : Nat → Int) (M : Nat)
    (hsel : p.has_selector = true)
    (hconst : ∀ j, M ≤ j → cnt j = cnt M) :
    same_sel_count_th = 10 ∧
    ∃ T s, scroll_load p cnt env
        ((M + 1 + same_sel_count_th) * max p.count_check_interval 1) =
      Sum.inl (T, s) := by
  refine ⟨rfl, ?_⟩
  have hfe : (M + 1 + same_sel_count_th) * max p.count_check_interval 1 =
      (M + 1) * max p.count_check_interval 1 +
        same_sel_count_th * max p.count_check_interval 1 := by
    ring
  rw [scroll_load, hfe]
  rcases scrollRun_polls_progress p cnt env hsel (M + 1) 0 initScrollSt
      rfl with ⟨T, s2, h⟩ | ⟨s', h, g1, g2, g3⟩
  · exact ⟨T, s2, scrollRun_split_inl p cnt env _ _ 0 initScrollSt (T, s2) h⟩
  · obtain ⟨g3a, g3b⟩ := g3 (by omega)
    have hpolls : s'.polls = M + 1 := by
      simpa [initScrollSt] using g1
    have hprev : s'.prev_n_selector = cnt M := by
      rw [g3a]
      congr 1
      simp only [initScrollSt]
      omega
    obtain ⟨T, s2, h2⟩ := scrollRun_selector_stops p cnt env hsel M hconst
      same_sel_count_th (0 + (M + 1) * max p.count_check_interval 1) s'
      (by omega) hprev g2 g3b (by omega)
    refine ⟨T, s2, ?_⟩
    rw [scrollRun_split_inr p cnt env _ _ 0 initScrollSt s' h]
    exact h2

/-- Witness for C2: a constant count stream, polls every cycle, offsets
that never repeat. -/
theorem scroll_load_selector_count_witness :
    same_sel_count_th = 10 ∧
    ∃ T s, scroll_load ⟨true, none, 100, 1, 1000⟩ (fun _ => 0)
        (fun k => (k : Int)) ((0 + 1 + same_sel_count_th) * max 1 1) =
      Sum.inl (T, s) :=
  scroll_load_selector_count_stabilizes ⟨true, none, 100, 1, 1000⟩
    (fun _ => 0) (fun k => (k : Int)) 0 rfl (fun j _ => rfl)

/-- By the time the progress-log `elif` (line 179) is evaluated,
`prev_n_selector` has already been synchronised with `n_selector` by both
branches of the equality test (lines 163-169), so its guard compares
`n - n` with `log_interval` and the branch cannot fire for any positive
`log_interval`. -/
theorem selectorStep_logs (threshold : Option Nat) (log_interval : Int)
    (ci : Nat) (cnt : Nat → Nat) (s : ScrollSt) (hli : 1 ≤ log_interval) :
    ((selectorStep threshold log_interval ci cnt s).1).progress_logs =
      s.progress_logs := by
  simp only [selectorStep, ge_iff_le]
  by_cases hpoll : ci ≤ s.count_check_counter + 1
  · rw [if_pos hpoll]
    by_cases heq : cnt s.polls = s.prev_n_selector
    · by_cases hb1 : same_sel_count_th ≤ s.same_sel_count + 1
      · simp [heq, hb1]
      · by_cases hb2 : thresholdReached threshold s.prev_n_selector = true
        · simp [heq, hb1, hb2]
        · have hl : ¬ log_interval ≤ (0 : Int) := by omega
          simp [heq, hb1, hb2, hl]
    · by_cases hb2 : thresholdReached threshold (cnt s.polls) = true
      · simp [heq, hb2, same_sel_count_th]
      · have hl : ¬ log_interval ≤ (0 : Int) := by omega
        simp [heq, hb2, hl, same_sel_count_th]
  · rw [if_neg hpoll]

/-- No cycle changes the progress-log counter when `log_interval ≥ 1`. -/
theorem scrollCycle_logs (p : ScrollParams) (cnt : Nat → Nat) (top : Int)
    (s : ScrollSt) (hli : 1 ≤ p.log_interval) :
    ((scrollCycle p cnt top s).1).progress_logs = s.progress_logs := by
  by_cases hsel : p.has_selector = true
  · by_cases hflag : (selectorStep p.threshold p.log_interval
        p.count_check_interval cnt s).2 = true
    · rw [scrollCycle_sel_break p cnt top s hsel hflag]
      exact selectorStep_logs _ _ _ _ _ hli
    · have hflag' : (selectorStep p.threshold p.log_interval
          p.count_check_interval cnt s).2 = false := by simpa using hflag
      rw [scrollCycle_sel_cont p cnt top s hsel hflag', topStep_progress]
      have h := selectorStep_logs p.threshold p.log_interval
        p.count_check_interval cnt s hli
      simpa using h
  · have hsel' : p.has_selector = false := by simpa using hsel
    rw [scrollCycle_nosel p cnt top s hsel', topStep_progress]

/-- For any positive `log_interval`, whole runs never touch the
progress-log counter: the branch is dead code. -/
theorem scrollRun_progress_logs (p : ScrollParams) (cnt : Nat → Nat)
    (env : Nat → Int) (hli : 1 ≤ p.log_interval) :
    ∀ (fuel k : Nat) (s : ScrollSt),
      (scrollFinal (scrollRun p cnt env fuel k s)).progress_logs =
        s.progress_logs := by
  intro fuel
  induction fuel with
  | zero => intro k s; rfl
  | succ fuel ih =>
    intro k s
    by_cases hb : (scrollCycle p cnt (env k) s).2 = true
    · rw [scrollRun_break p cnt env fuel k s hb]
      exact scrollCycle_logs p cnt (env k) s hli
    · have hb' : (scrollCycle p cnt (env k) s).2 = false := by simpa using hb
      rw [scrollRun_cont p cnt env fuel k s hb', ih (k + 1) _]
      exact scrollCycle_logs p cnt (env k) s hli

/-- Claim C9, evaluated at the failing input: polling every cycle with
counts 0, 200, 200, … — a jump of 200 ≥ `log_interval` = 100 between
consecutive polls — the run performs five polls yet the progress branch
never executes (`progress_logs = 0`), because `prev_n_selector` is reset
to `n_selector` before the `elif` guard is evaluated.  The spec's
"if `n - previousN` exceeds `logEveryNNewElements`, emit a progress
observation and reset the baseline" is unreachable for every positive
`log_interval`. -/
theorem scroll_progress_log_never_fires :
    (scrollFinal (scroll_load ⟨true, none, 100, 1, 100⟩
        (fun j => if j = 0 then 0 else 200) (fun k => (k : Int))
        5)).progress_logs = 0 ∧
    (scrollFinal (scroll_load ⟨true, none, 100, 1, 100⟩
        (fun j => if j = 0 then 0 else 200) (fun k => (k : Int))
        5)).polls = 5 ∧
    (200 : Int) - 0 ≥ 100 := by
  refine ⟨rfl, rfl, by decide⟩

/-! ## ScrollHandler.scroll_load_selector

Python source (`scroll_handler.py`, lines 86-118): run `_scroll_load`
with the selector, then

```text
elements = await self._common_handler.get_elements(selector=selector)
n_elements = len(elements)
self.debug_tool.info(f'Loaded ... elements')
return elements
```

Every selector query — the `count()` polls inside the loop (`count` is
`len(query_selector_all(...))`) and the final `get_elements` — reads the
same stream `elemsSeq` of element-handle lists, indexed by query number;
a poll observes only the length.  The final query is therefore
`elemsSeq q.polls` where `q.polls` counts the polls the loop performed.
Python is dynamically typed, so the returned value is modelled in `PyVal`
to express *what kind* of value comes back; the docstring's
`:return: (int) The number of elements matching the selector` disagrees
with the `return elements` statement and the
`-> List[playwright.async_api.ElementHandle]` annotation.  `none` models
the fuel cut-off (the loop had not yet terminated). -/

/-- A dynamically-typed Python return value: an `int` or a list of
element handles (handles modelled as naturals). -/
inductive PyVal where
  | pyInt (n : Int)
  | pyList (handles : List Nat)
deriving DecidableEq, Repr

/-- Python `len`, defined on lists only. -/
def pyLen : PyVal → Option Nat
  | PyVal.pyInt _ => none
  | PyVal.pyList xs => some xs.length

/-- Whether a returned value is an `int`. -/
def pyIsInt : Option PyVal → Bool
  | some (PyVal.pyInt _) => true
  | _ => false

/-- `ScrollHandler.scroll_load_selector`: stabilization loop, then the
final element query, returning `elements`. -/
def scroll_load_selector (threshold : Option Nat) (log_interval : Int)
    (count_check_interval same_th : Nat) (elemsSeq : Nat → List Nat)
    (env : Nat → Int) (fuel : Nat) : Option PyVal :=
  match scroll_load
      ⟨true, threshold, log_interval, count_check_interval, same_th⟩
      (fun j => (elemsSeq j).length) env fuel with
  | Sum.inl r => some (PyVal.pyList (elemsSeq r.2.polls))
  | Sum.inr _ => none

/-- Claim C8 (amended): whenever the stabilization loop terminates,
`scroll_load_selector` returns the **list** of elements matching the
selector as re-queried after the loop stops; the final matched-element
count is the length of that list, not the returned value itself. -/
theorem scroll_load_selector_returns_element_list (threshold : Option Nat)
    (log_interval : Int) (count_check_interval same_th : Nat)
    (elemsSeq : Nat → List Nat) (env : Nat → Int) (fuel : Nat) (r : PyVal)
    (h : scroll_load_selector threshold log_interval count_check_interval
      same_th elemsSeq env fuel = some r) :
    ∃ q, scroll_load
        ⟨true, threshold, log_interval, count_check_interval, same_th⟩
        (fun j => (elemsSeq j).length) env fuel = Sum.inl q ∧
      r = PyVal.pyList (elemsSeq q.2.polls) ∧
      pyLen r = some (elemsSeq q.2.polls).length := by
  cases hm : scroll_load
      ⟨true, threshold, log_interval, count_check_interval, same_th⟩
      (fun j => (elemsSeq j).length) env fuel with
  | inl q =>
    simp only [scroll_load_selector, hm] at h
    injection h with h1
    exact ⟨q, rfl, h1.symm, by rw [← h1]; rfl⟩
  | inr s =>
    simp only [scroll_load_selector, hm] at h
    cases h

/-- Witness for C8's amended theorem at a terminating concrete run: the
page always holds the two elements `[7, 8]`, the threshold 1 stops the
loop at the first poll, and the returned value is the element list. -/
theorem scroll_load_selector_returns_witness :
    ∃ q, scroll_load ⟨true, some 1, 100, 1, 20⟩
        (fun j => ((fun _ => ([7, 8] : List Nat)) j).length)
        (fun _ => (0 : Int)) 2 = Sum.inl q ∧
      PyVal.pyList [7, 8] =
        PyVal.pyList ((fun _ => ([7, 8] : List Nat)) q.2.polls) ∧
      pyLen (PyVal.pyList [7, 8]) =
        some ((fun _ => ([7, 8] : List Nat)) q.2.polls).length :=
  scroll_load_selector_returns_element_list (some 1) 100 1 20
    (fun _ => [7, 8]) (fun _ => (0 : Int)) 2 (PyVal.pyList [7, 8]) rfl

/-- Counterexample to claim C8 as stated: at a concrete run the call
returns the list value `[7, 8]` — a `list`, not an `int` — so its result
is not "the final matched-element count" (which would be the integer 2);
the count is only the length of the returned list. -/
theorem scroll_load_selector_not_a_count :
    scroll_load_selector (some 1) 100 1 20 (fun _ => [7, 8])
        (fun _ => (0 : Int)) 2 = some (PyVal.pyList [7, 8]) ∧
    pyIsInt (scroll_load_selector (some 1) 100 1 20 (fun _ => [7, 8])
        (fun _ => (0 : Int)) 2) = false := by
  constructor <;> rfl
